import Mathlib

/-!
Verification of the streaming event reconstruction logic of the `getAiInsights`
function in `src/App.tsx` (gdc-bank-FE).  The per-chunk pipeline of the source is
embedded shallowly:

* `decodeChunk` models `new TextDecoder().decode(value)` — a NON-streaming
  WHATWG UTF-8 decode of each byte chunk (the source does not pass
  `\x7b stream: true \x7d`), including BOM removal and U+FFFD replacement for
  malformed or incomplete sequences.
* `extractFrames` models the repeated `regex.exec` loop for the global regex
  `data:\s*(\x7b.+?\x7d)\n?` : literal `data:`, greedy whitespace, an opening
  brace, a lazy run of non-line-terminator characters, the first closing brace,
  and an optional trailing newline.
* `parseJson` models `JSON.parse` (strict JSON grammar; numbers are kept as
  exact mantissa/decimal-exponent pairs rather than binary floats).
* `interpFrame` models the body of the match loop: the `includes("[DONE]")`
  substring check, the `JSON.parse` attempt, the optional chain
  `parsed.choices?.[0]?.delta?.content || ""`, and the raw-string fallback in
  the `catch` branch.
* `getAiInsights` models the surrounding driver: the `response.ok` and
  `response.body` guards, the read loop, and the `catch` that replaces the
  accumulated insight with `"Error: " + err`.
-/

namespace GdcBank

/-! ## Character classes of the JavaScript regex engine -/

/-- The characters matched by `\s` in a JavaScript regular expression. -/
def jsSpaceChar (c : Char) : Bool :=
  [9, 10, 11, 12, 13, 32, 160, 0x1680, 0x2000, 0x2001, 0x2002, 0x2003,
   0x2004, 0x2005, 0x2006, 0x2007, 0x2008, 0x2009, 0x200A, 0x2028, 0x2029,
   0x202F, 0x205F, 0x3000, 0xFEFF].contains c.toNat

/-- The characters matched by `.` in a JavaScript regular expression without the
`s` flag: everything except the four line terminators. -/
def jsDotChar (c : Char) : Bool :=
  !(c = '\n' || c = '\r' || c.toNat = 0x2028 || c.toNat = 0x2029)

/-! ## Frame extraction: the `regex.exec` loop over `data:\s*(\x7b.+?\x7d)\n?` -/

/-- Scan for the first closing brace at distance at least one from the opening
brace (the lazy `.+?` requires at least one interior character, each of which
must be matchable by `.`).  Returns the interior and the remainder after the
closing brace, or `none` when a line terminator intervenes or the input ends. -/
def findCloseAux : List Char → List Char → Option (List Char × List Char)
  | _, [] => none
  | acc, c :: rest =>
    if c = '\x7d' then some (acc.reverse, rest)
    else if jsDotChar c then findCloseAux (c :: acc) rest
    else none

/-- Match `.+?\x7d` against `body` (the characters following the opening
brace). -/
def findClose : List Char → Option (List Char × List Char)
  | [] => none
  | c :: rest => if jsDotChar c then findCloseAux [c] rest else none

/-- Drop the optional trailing `\n` consumed by `\n?` after a match. -/
def stripLf : List Char → List Char
  | '\n' :: r => r
  | r => r

/-- The `while ((match = regex.exec(chunk)) !== null)` loop: find each leftmost
match of `data:\s*(\x7b.+?\x7d)\n?` and collect the captured group.  A failed
attempt advances the start position by one character, exactly as the regex
engine retries at the next index.  `fuel` bounds the recursion; every step
consumes at least one character, so `length + 1` fuel is always sufficient. -/
def scanFramesAux : Nat → List Char → List (List Char)
  | 0, _ => []
  | f + 1, cs =>
    match cs with
    | 'd' :: 'a' :: 't' :: 'a' :: ':' :: rest =>
      match rest.dropWhile jsSpaceChar with
      | '\x7b' :: body =>
        match findClose body with
        | some (interior, rest2) =>
          ('\x7b' :: (interior ++ ['\x7d'])) :: scanFramesAux f (stripLf rest2)
        | none => scanFramesAux f cs.tail
      | _ => scanFramesAux f cs.tail
    | _ :: rest => scanFramesAux f rest
    | [] => []

/-- All captured groups (`match[1]`) produced by the regex loop on one chunk. -/
def extractFramesCL (cs : List Char) : List (List Char) :=
  scanFramesAux (cs.length + 1) cs

/-- String-level wrapper for `extractFramesCL`. -/
def extractFrames (s : String) : List String :=
  (extractFramesCL s.toList).map String.mk

/-! ## Substring containment: `String.prototype.includes` -/

/-- `hay` contains `needle` as a contiguous substring. -/
def containsSubCL (needle : List Char) : List Char → Bool
  | [] => needle.isEmpty
  | c :: rest => needle.isPrefixOf (c :: rest) || containsSubCL needle rest

/-- Models `s.includes(sub)`. -/
def containsSubstr (s sub : String) : Bool :=
  containsSubCL sub.toList s.toList

/-! ## JSON values and `JSON.parse` -/

/-- JSON values as produced by `JSON.parse`.  A number literal with decimal
digits `m` and decimal exponent `e` denotes `m * 10 ^ e`; the binary float
rounding performed by JavaScript is not modelled (no claim depends on it). -/
inductive Json where
  | null : Json
  | bool : Bool → Json
  | num : Int → Int → Json
  | str : String → Json
  | arr : List Json → Json
  | obj : List (String × Json) → Json

def jsonWsChar (c : Char) : Bool :=
  c = ' ' || c = '\t' || c = '\n' || c = '\r'

def skipWs (cs : List Char) : List Char := cs.dropWhile jsonWsChar

def isDigitChar (c : Char) : Bool := '0' ≤ c && c ≤ '9'

def digitsToNat (ds : List Char) : Nat :=
  ds.foldl (fun a c => a * 10 + (c.toNat - '0'.toNat)) 0

def simpleEscape (c : Char) : Option Char :=
  if c = '"' then some '"'
  else if c = '\\' then some '\\'
  else if c = '/' then some '/'
  else if c = 'b' then some (Char.ofNat 8)
  else if c = 'f' then some (Char.ofNat 12)
  else if c = 'n' then some '\n'
  else if c = 'r' then some '\r'
  else if c = 't' then some '\t'
  else none

def isHexChar (c : Char) : Bool :=
  ('0' ≤ c && c ≤ '9') || ('a' ≤ c && c ≤ 'f') || ('A' ≤ c && c ≤ 'F')

def hexVal (c : Char) : Nat :=
  if '0' ≤ c && c ≤ '9' then c.toNat - '0'.toNat
  else if 'a' ≤ c && c ≤ 'f' then c.toNat - 'a'.toNat + 10
  else c.toNat - 'A'.toNat + 10

def hex4 (a b c d : Char) : Nat :=
  ((hexVal a * 16 + hexVal b) * 16 + hexVal c) * 16 + hexVal d

/-- Parse the body of a JSON string after the opening quote, returning the
decoded characters and the remainder after the closing quote.  Surrogate pairs
written with `\u` escapes are combined; a lone surrogate escape is replaced
with U+FFFD because a Lean `Char` cannot hold a surrogate code point (JavaScript
would keep the lone surrogate; no claim exercises this corner).  `fuel` bounds
the recursion; every step consumes at least one character, so `length + 1` fuel
is always sufficient. -/
def parseStringBodyAux : Nat → List Char → Option (List Char × List Char)
  | 0, _ => none
  | _ + 1, [] => none
  | _ + 1, '"' :: rest => some ([], rest)
  | f + 1, '\\' :: 'u' :: h1 :: h2 :: h3 :: h4 :: rest =>
    if isHexChar h1 && isHexChar h2 && isHexChar h3 && isHexChar h4 then
      let cu := hex4 h1 h2 h3 h4
      if 0xD800 ≤ cu ∧ cu ≤ 0xDBFF then
        match rest with
        | '\\' :: 'u' :: g1 :: g2 :: g3 :: g4 :: rest2 =>
          if (isHexChar g1 && isHexChar g2 && isHexChar g3 && isHexChar g4)
              && (decide (0xDC00 ≤ hex4 g1 g2 g3 g4) && decide (hex4 g1 g2 g3 g4 ≤ 0xDFFF)) then
            (parseStringBodyAux f rest2).map
              (fun p =>
                (Char.ofNat (0x10000 + (cu - 0xD800) * 0x400 + (hex4 g1 g2 g3 g4 - 0xDC00)) :: p.1,
                 p.2))
          else
            (parseStringBodyAux f rest).map (fun p => (Char.ofNat 0xFFFD :: p.1, p.2))
        | _ =>
          (parseStringBodyAux f rest).map (fun p => (Char.ofNat 0xFFFD :: p.1, p.2))
      else if 0xDC00 ≤ cu ∧ cu ≤ 0xDFFF then
        (parseStringBodyAux f rest).map (fun p => (Char.ofNat 0xFFFD :: p.1, p.2))
      else
        (parseStringBodyAux f rest).map (fun p => (Char.ofNat cu :: p.1, p.2))
    else none
  | f + 1, '\\' :: e :: rest =>
    match simpleEscape e with
    | some c => (parseStringBodyAux f rest).map (fun p => (c :: p.1, p.2))
    | none => none
  | f + 1, c :: rest =>
    if c.toNat < 0x20 then none
    else (parseStringBodyAux f rest).map (fun p => (c :: p.1, p.2))

/-- Parse a JSON string body after the opening quote. -/
def parseStringBody (cs : List Char) : Option (List Char × List Char) :=
  parseStringBodyAux (cs.length + 1) cs

/-- Parse the `[eE][+-]?digits` tail of a number. -/
def parseExpTail (cs : List Char) : Option (Int × List Char) :=
  let (esign, cs2) :=
    match cs with
    | '+' :: r => (false, r)
    | '-' :: r => (true, r)
    | _ => (false, cs)
  let ds := cs2.takeWhile isDigitChar
  if ds = [] then none
  else
    let v : Int := Int.ofNat (digitsToNat ds)
    some (if esign then -v else v, cs2.dropWhile isDigitChar)

/-- Parse an optional exponent part; absent means exponent `0`. -/
def parseExpPart (cs : List Char) : Option (Int × List Char) :=
  match cs with
  | 'e' :: r => parseExpTail r
  | 'E' :: r => parseExpTail r
  | _ => some (0, cs)

/-- Parse an optional fraction part; absent means no fraction digits. -/
def parseFracPart (cs : List Char) : Option (List Char × List Char) :=
  match cs with
  | '.' :: r =>
    let ds := r.takeWhile isDigitChar
    if ds = [] then none else some (ds, r.dropWhile isDigitChar)
  | _ => some ([], cs)

/-- Parse a JSON number literal (strict grammar: no leading zeros, fraction and
exponent digits required when their markers are present). -/
def parseNumber (cs : List Char) : Option (Json × List Char) :=
  let (neg, cs1) :=
    match cs with
    | '-' :: r => (true, r)
    | _ => (false, cs)
  let intPart : Option (List Char × List Char) :=
    match cs1 with
    | '0' :: r => some (['0'], r)
    | c :: r =>
      if isDigitChar c then some (c :: r.takeWhile isDigitChar, r.dropWhile isDigitChar)
      else none
    | [] => none
  match intPart with
  | none => none
  | some (ids, cs2) =>
    match parseFracPart cs2 with
    | none => none
    | some (fds, cs3) =>
      match parseExpPart cs3 with
      | none => none
      | some (ev, cs4) =>
        let mAbs : Int := Int.ofNat (digitsToNat (ids ++ fds))
        let m : Int := if neg then -mAbs else mAbs
        some (Json.num m (ev - Int.ofNat fds.length), cs4)

mutual

/-- Recursive-descent JSON value parser.  `fuel` strictly exceeds twice the
remaining input length whenever called from `parseJson`, so exhaustion is
unreachable there. -/
def parseVal : Nat → List Char → Option (Json × List Char)
  | 0, _ => none
  | f + 1, cs =>
    match skipWs cs with
    | 'n' :: 'u' :: 'l' :: 'l' :: rest => some (Json.null, rest)
    | 't' :: 'r' :: 'u' :: 'e' :: rest => some (Json.bool true, rest)
    | 'f' :: 'a' :: 'l' :: 's' :: 'e' :: rest => some (Json.bool false, rest)
    | '"' :: rest =>
      (parseStringBody rest).map (fun p => (Json.str (String.mk p.1), p.2))
    | '[' :: rest =>
      match skipWs rest with
      | ']' :: r2 => some (Json.arr [], r2)
      | _ => parseArrItems f rest []
    | '\x7b' :: rest =>
      match skipWs rest with
      | '\x7d' :: r2 => some (Json.obj [], r2)
      | _ => parseObjItems f rest []
    | rest => parseNumber rest

/-- Comma-separated array elements after `[`. -/
def parseArrItems : Nat → List Char → List Json → Option (Json × List Char)
  | 0, _, _ => none
  | f + 1, cs, acc =>
    match parseVal f cs with
    | none => none
    | some (v, rest) =>
      match skipWs rest with
      | ',' :: r2 => parseArrItems f r2 (v :: acc)
      | ']' :: r2 => some (Json.arr (v :: acc).reverse, r2)
      | _ => none

/-- Comma-separated `"key": value` members after `\x7b`. -/
def parseObjItems : Nat → List Char → List (String × Json) → Option (Json × List Char)
  | 0, _, _ => none
  | f + 1, cs, acc =>
    match skipWs cs with
    | '"' :: rest =>
      match parseStringBody rest with
      | none => none
      | some (key, r1) =>
        match skipWs r1 with
        | ':' :: r2 =>
          match parseVal f r2 with
          | none => none
          | some (v, r3) =>
            match skipWs r3 with
            | ',' :: r4 => parseObjItems f r4 ((String.mk key, v) :: acc)
            | '\x7d' :: r4 => some (Json.obj ((String.mk key, v) :: acc).reverse, r4)
            | _ => none
        | _ => none
    | _ => none

end

/-- Models `JSON.parse(s)`: `some` on a parse that consumes the whole input up
to trailing whitespace, `none` on the `SyntaxError` path. -/
def parseJson (s : String) : Option Json :=
  let cs := s.toList
  match parseVal (2 * cs.length + 2) cs with
  | some (v, rest) => if skipWs rest = [] then some v else none
  | none => none

/-! ## JavaScript value coercions used by the match-loop body -/

/-- Truthiness of a `JSON.parse` result, as tested by `||`. -/
def jsTruthy : Json → Bool
  | Json.null => false
  | Json.bool b => b
  | Json.num m _ => m != 0
  | Json.str s => !(s == "")
  | Json.arr _ => true
  | Json.obj _ => true

/-- Decimal digit characters of `m * 10 ^ e`, matching JavaScript `String()`
formatting of the values a JSON literal can denote: trailing fraction zeros are
dropped, `-0` prints as `0`.  (JavaScript switches to exponent notation beyond
1e21 and below 1e-7; that regime is not exercised by any claim.) -/
def jsNumToString (m e : Int) : String :=
  if m = 0 then "0"
  else
    let sign := if m < 0 then "-" else ""
    let dl := (toString m.natAbs).toList
    if 0 ≤ e then
      sign ++ String.mk dl ++ String.mk (List.replicate e.toNat '0')
    else
      let k := (-e).toNat
      if k < dl.length then
        let fp := ((dl.drop (dl.length - k)).reverse.dropWhile (· = '0')).reverse
        sign ++ String.mk (dl.take (dl.length - k)) ++
          (if fp = [] then "" else "." ++ String.mk fp)
      else
        let fp := ((List.replicate (k - dl.length) '0' ++ dl).reverse.dropWhile (· = '0')).reverse
        sign ++ "0" ++ (if fp = [] then "" else "." ++ String.mk fp)

mutual

/-- JavaScript `String(v)` coercion applied by `cleanText += content`. -/
def jsToString : Json → String
  | Json.null => "null"
  | Json.bool true => "true"
  | Json.bool false => "false"
  | Json.num m e => jsNumToString m e
  | Json.str s => s
  | Json.arr xs => jsToStringElems xs
  | Json.obj _ => "[object Object]"

/-- Array elements joined with `,`; a `null` element prints as the empty
string, per `Array.prototype.join`. -/
def jsToStringElems : List Json → String
  | [] => ""
  | [Json.null] => ""
  | [x] => jsToString x
  | Json.null :: xs => "," ++ jsToStringElems xs
  | x :: xs => jsToString x ++ "," ++ jsToStringElems xs

end

/-- Property lookup on the object kinds this component actually dereferences:
objects look up the last binding of the key (`JSON.parse` keeps the last
duplicate key), arrays answer index `"0"` with their first element, strings
answer index `"0"` with their first character; other bases have none of the
accessed properties.  `none` models `undefined`. -/
def jsGetProp : Json → String → Option Json
  | Json.obj kvs, key =>
    kvs.foldl (fun acc p => if p.1 = key then some p.2 else acc) none
  | Json.arr xs, key => if key = "0" then xs.head? else none
  | Json.str s, key =>
    if key = "0" then (s.toList.head?).map (fun c => Json.str (String.mk [c])) else none
  | _, _ => none

/-- `undefined` or `null`, the values on which `?.` short-circuits. -/
def jsNullish : Option Json → Bool
  | none => true
  | some Json.null => true
  | some _ => false

/-- Models `parsed.choices?.[0]?.delta?.content` for a non-null `parsed`;
`none` is `undefined` (either a short-circuited chain or an absent final
property). -/
def chainContent (j : Json) : Option Json :=
  let t1 := jsGetProp j "choices"
  if jsNullish t1 then none
  else
    let t2 := jsGetProp (t1.getD Json.null) "0"
    if jsNullish t2 then none
    else
      let t3 := jsGetProp (t2.getD Json.null) "delta"
      if jsNullish t3 then none
      else jsGetProp (t3.getD Json.null) "content"

/-! ## The body of the match loop -/

/-- The Delta contributed by one captured frame `jsonStr`:
`if (jsonStr.includes("[DONE]")) continue;` yields nothing; otherwise
`JSON.parse` is attempted and `choices?.[0]?.delta?.content || ""` is appended,
with the `catch` branch appending the raw capture both when parsing throws and
when `parsed.choices` throws a `TypeError` (`parsed` null). -/
def interpFrame (s : String) : String :=
  if containsSubstr s "[DONE]" then ""
  else
    match parseJson s with
    | none => s
    | some Json.null => s
    | some j =>
      match chainContent j with
      | none => ""
      | some v => if jsTruthy v then jsToString v else ""

/-- `cleanText` accumulated over all regex matches of one chunk. -/
def processChunk (chunk : String) : String :=
  ((extractFrames chunk).map interpFrame).foldl (· ++ ·) ""

/-- `setInsight((prev) => prev + cleanText)` for one chunk. -/
def feedChunk (insight chunk : String) : String :=
  insight ++ processChunk chunk

/-- The read loop over a sequence of already-decoded text chunks, starting from
the cleared insight `""`. -/
def runChunks (chunks : List String) : String :=
  chunks.foldl feedChunk ""

/-! ## The chunk decoder: a fresh non-streaming `TextDecoder.decode` per call -/

/-- Classify a UTF-8 lead byte that opens a multi-byte sequence: initial code
point bits, number of continuation bytes, and the WHATWG bounds for the first
continuation byte. -/
def utf8Start (b : Nat) : Option (Nat × Nat × Nat × Nat) :=
  if 0xC2 ≤ b ∧ b ≤ 0xDF then some (b % 32, 1, 0x80, 0xBF)
  else if b = 0xE0 then some (b % 16, 2, 0xA0, 0xBF)
  else if (0xE1 ≤ b ∧ b ≤ 0xEC) ∨ (0xEE ≤ b ∧ b ≤ 0xEF) then some (b % 16, 2, 0x80, 0xBF)
  else if b = 0xED then some (b % 16, 2, 0x80, 0x9F)
  else if b = 0xF0 then some (b % 8, 3, 0x90, 0xBF)
  else if 0xF1 ≤ b ∧ b ≤ 0xF3 then some (b % 8, 3, 0x80, 0xBF)
  else if b = 0xF4 then some (b % 8, 3, 0x80, 0x8F)
  else none

/-- Process one byte with no multi-byte sequence pending: ASCII is emitted, a
lead byte opens a pending sequence, anything else emits U+FFFD. -/
def utf8Step0 (b : Nat) : List Nat × Option (Nat × Nat × Nat × Nat) :=
  if b ≤ 0x7F then ([b], none)
  else
    match utf8Start b with
    | some st => ([], some st)
    | none => ([0xFFFD], none)

/-- WHATWG UTF-8 decoding with U+FFFD replacement (`fatal: false`).  The state
holds a pending multi-byte sequence: accumulated code point bits, continuation
bytes still needed, and the bounds for the next continuation byte.  A byte
outside the bounds emits U+FFFD and is reprocessed as an initial byte, and end
of input with a pending sequence emits a final U+FFFD (the end-of-queue flush
of a `TextDecoder.decode` call made without `stream: true`). -/
def utf8Loop : List Nat → Option (Nat × Nat × Nat × Nat) → List Nat
  | [], none => []
  | [], some _ => [0xFFFD]
  | b :: rest, none =>
    let (out, st) := utf8Step0 b
    out ++ utf8Loop rest st
  | b :: rest, some (cp, needed, lower, upper) =>
    if lower ≤ b ∧ b ≤ upper then
      if needed = 1 then (cp * 64 + b % 64) :: utf8Loop rest none
      else utf8Loop rest (some (cp * 64 + b % 64, needed - 1, 0x80, 0xBF))
    else
      let (out, st) := utf8Step0 b
      (0xFFFD :: out) ++ utf8Loop rest st

/-- Decode a whole byte list. -/
def utf8Main (bs : List Nat) : List Nat :=
  utf8Loop bs none

/-- Models one `decoder.decode(value)` call: BOM removal followed by UTF-8
decoding of the whole chunk (the decoder carries no state between calls because
`stream: true` is not passed). -/
def decodeChunk (bytes : List Nat) : String :=
  let bytes2 :=
    match bytes with
    | 0xEF :: 0xBB :: 0xBF :: rest => rest
    | _ => bytes
  String.mk ((utf8Main bytes2).map Char.ofNat)

/-- The read loop over raw byte chunks. -/
def runChunksBytes (chunks : List (List Nat)) : String :=
  runChunks (chunks.map decodeChunk)

/-- Bytes of an ASCII string, for stating concrete byte-level inputs. -/
def asciiBytes (s : String) : List Nat :=
  s.toList.map Char.toNat

/-! ## The session driver -/

/-- Terminal disposition of one invocation: the read loop finished (`CLOSED`)
or the `catch` block ran with the given error message (`FAILED`). -/
inductive SessionOutcome where
  | CLOSED : SessionOutcome
  | FAILED : String → SessionOutcome
deriving DecidableEq

/-- The transport-level inputs `getAiInsights` reacts to: `response.ok`,
presence of `response.body`, and the byte chunks the reader yields. -/
structure StreamResponse where
  ok : Bool
  hasBody : Bool
  chunks : List (List Nat)

/-- Models `getAiInsights`: the `!response.ok` and `!response.body` guards
throw, the `catch` sets the insight to `"Error: " + err` (JavaScript stringifes
an `Error` as `"Error: <message>"`, hence the doubled prefix); otherwise the
read loop accumulates the decoded, frame-extracted, interpreted chunks. -/
def getAiInsights (r : StreamResponse) : String × SessionOutcome :=
  if r.ok = false then
    ("Error: Error: Backend unreachable", SessionOutcome.FAILED "Backend unreachable")
  else if r.hasBody = false then
    ("Error: Error: ReadableStream not yet supported or empty response",
     SessionOutcome.FAILED "ReadableStream not yet supported or empty response")
  else
    (runChunksBytes r.chunks, SessionOutcome.CLOSED)

/-! ## Helper lemmas -/

/-- A captured frame is the opening brace, the lazy interior, and the first
closing brace. -/
theorem frameShape (interior : List Char) :
    ('\x7b' :: (interior ++ ['\x7d'])).head? = some '\x7b' ∧
    ('\x7b' :: (interior ++ ['\x7d'])).getLast? = some '\x7d' := by
  refine ⟨rfl, ?_⟩
  rw [← List.cons_append, List.getLast?_append_cons]
  rfl

/-- Every capture produced by the regex loop starts with an opening brace and
ends with a closing brace, whatever the fuel and the chunk. -/
theorem scanFrames_shape : ∀ fuel cs f, f ∈ scanFramesAux fuel cs →
    f.head? = some '\x7b' ∧ f.getLast? = some '\x7d' := by
  intro fuel
  induction fuel using Nat.strong_induction_on with
  | _ n ih =>
    intro cs f h
    rw [scanFramesAux.eq_def] at h
    repeat' split at h
    all_goals
      first
      | exact ih _ (by omega) _ _ h
      | (rcases List.mem_cons.mp h with h1 | h1
         · subst h1; exact frameShape _
         · exact ih _ (by omega) _ _ h1)
      | simp at h

/-! ## Claims -/

/-- Claim C1: the spec requires that every partition of the same well-formed
byte stream into chunks yields the same final accumulated output.  The code
violates this: it re-runs the frame regex independently per chunk with no
carry-over buffer, so the well-formed stream
`data: \x7b"choices":[\x7b"delta":\x7b"content":"Hi"\x7d\x7d]\x7d\n` fed as a
single chunk yields the brace-truncated raw fallback text, while the same
bytes split at offset 11 yield the empty output. -/
theorem c1_chunk_split_changes_output :
    runChunksBytes
        [asciiBytes "data: \x7b\"choices\":[\x7b\"delta\":\x7b\"content\":\"Hi\"\x7d\x7d]\x7d\n"]
      = "\x7b\"choices\":[\x7b\"delta\":\x7b\"content\":\"Hi\"\x7d"
    ∧ runChunksBytes
        [(asciiBytes "data: \x7b\"choices\":[\x7b\"delta\":\x7b\"content\":\"Hi\"\x7d\x7d]\x7d\n").take 11,
         (asciiBytes "data: \x7b\"choices\":[\x7b\"delta\":\x7b\"content\":\"Hi\"\x7d\x7d]\x7d\n").drop 11]
      = ""
    ∧ ¬ ("\x7b\"choices\":[\x7b\"delta\":\x7b\"content\":\"Hi\"\x7d" : String) = "" := by
  refine ⟨by decide, by decide, by decide⟩

/-- Claim C2: the spec's end-to-end scenario expects output `"Hello world"`
and terminal state `CLOSED`.  The code does reach `CLOSED` (natural end of
stream), but its output is the brace-truncated raw fallback of the third
chunk's frame, not `"Hello world"`: the first frame is lost across the chunk
boundary and the lazy `.+?` stops at the first closing brace. -/
theorem c2_scenario_output_and_state :
    getAiInsights
        ⟨true, true,
         [asciiBytes "data: \x7b\"choices\":[\x7b\"delta\":\x7b\"content\":\"Hel",
          asciiBytes "lo\"\x7d\x7d]\x7d\n",
          asciiBytes "data: \x7b\"choices\":[\x7b\"delta\":\x7b\"content\":\" world\"\x7d\x7d]\x7d\n",
          asciiBytes "data: [DONE]\n"]⟩
      = ("\x7b\"choices\":[\x7b\"delta\":\x7b\"content\":\" world\"\x7d", SessionOutcome.CLOSED)
    ∧ ¬ ("\x7b\"choices\":[\x7b\"delta\":\x7b\"content\":\" world\"\x7d" : String) = "Hello world" := by
  refine ⟨by decide, by decide⟩

/-- Claim C3: the spec's invariant requires a carry-over buffer: trailing text
that is not yet a complete frame must be retained and contribute once
completed.  The code keeps no buffer across chunk-processing calls: the frame
`data: \x7babc\x7d` split as `data: \x7bab` / `c\x7d` contributes nothing,
although the unsplit frame contributes its Delta `\x7babc\x7d`. -/
theorem c3_carryover_missing :
    runChunks ["data: \x7bab", "c\x7d\n"] = ""
    ∧ runChunks ["data: \x7babc\x7d\n"] = "\x7babc\x7d" := by
  refine ⟨by decide, by decide⟩

/-- Claim C4: the spec requires that once the sentinel is observed no further
Delta is emitted, even for later frames of the same chunk.  The code merely
`continue`s past the sentinel frame and keeps no terminal flag, so a frame
following `data: \x7b[DONE]\x7d` in the same chunk still emits its Delta. -/
theorem c4_delta_emitted_after_sentinel :
    processChunk "data: \x7b[DONE]\x7d\ndata: \x7babc\x7d\n" = "\x7babc\x7d"
    ∧ interpFrame "\x7b[DONE]\x7d" = ""
    ∧ ¬ ("\x7babc\x7d" : String) = "" := by
  refine ⟨by decide, by decide, by decide⟩

/-- Claim C5 (counterexample): the claim asserts that the payload of
`data: not-json-at-all` still appears verbatim in the output.  In the code the
regex only captures a braced `\x7b...\x7d` group, so this line produces no
frame at all and the output stays empty. -/
theorem c5_counterexample_unbraced_payload_dropped :
    runChunks ["data: not-json-at-all\n"] = ""
    ∧ containsSubstr "" "not-json-at-all" = false := by
  refine ⟨by decide, by decide⟩

/-- Claim C5 (amended): for every captured frame payload that does not contain
the sentinel substring and fails `JSON.parse`, the entire raw capture is the
Delta, verbatim, and no error escapes; a `data:` line without a braced payload
is never captured and contributes nothing. -/
theorem c5_amended_fallback_for_braced_frames (s : String)
    (hsent : containsSubstr s "[DONE]" = false)
    (hfail : parseJson s = none) :
    interpFrame s = s := by
  simp [interpFrame, hsent, hfail]

/-- Witness for the amended C5 at the concrete capture `\x7bnot json\x7d`. -/
theorem c5_amended_witness :
    containsSubstr "\x7bnot json\x7d" "[DONE]" = false
    ∧ parseJson "\x7bnot json\x7d" = none
    ∧ interpFrame "\x7bnot json\x7d" = "\x7bnot json\x7d" :=
  ⟨by decide, by rfl,
   c5_amended_fallback_for_braced_frames "\x7bnot json\x7d" (by decide) (by rfl)⟩

/-- Claim C6: the spec describes the lazy match as bounded by the payload's
balanced braces, yielding the entire payload.  The regex `\x7b.+?\x7d` stops
at the first closing brace instead: for `data: \x7b"a":\x7b"b":1\x7d\x7d` the
captured frame is the prefix truncated at the first inner closing brace, not
the entire payload. -/
theorem c6_nested_braces_truncate_frame :
    extractFrames "data: \x7b\"a\":\x7b\"b\":1\x7d\x7d\n"
      = ["\x7b\"a\":\x7b\"b\":1\x7d"]
    ∧ ¬ ("\x7b\"a\":\x7b\"b\":1\x7d" : String) = "\x7b\"a\":\x7b\"b\":1\x7d\x7d" := by
  refine ⟨by decide, by decide⟩

/-- Claim C7: the spec requires a multi-byte code point split across chunks to
decode to the correct character exactly once.  The code calls
`decoder.decode(value)` without `stream: true`, so each chunk is decoded in
isolation: the UTF-8 bytes of `é` split across two chunks decode to two U+FFFD
replacement characters, while the unsplit bytes decode to `é`. -/
theorem c7_split_codepoint_garbled :
    decodeChunk [0xC3] = "�"
    ∧ decodeChunk [0xA9] = "�"
    ∧ decodeChunk [0xC3, 0xA9] = "é"
    ∧ ¬ (decodeChunk [0xC3] ++ decodeChunk [0xA9]) = "é" := by
  refine ⟨by decide, by decide, by decide, by decide⟩

/-- Claim C8: for a frame payload that parses as an object (and does not carry
the sentinel substring, which is checked first), the Delta is the value of the
optional chain `choices?.[0]?.delta?.content`: a string value passes through
verbatim, and an absent step yields the empty string with no error. -/
theorem c8_content_path_extraction (s : String) (j : Json)
    (hsent : containsSubstr s "[DONE]" = false)
    (hparse : parseJson s = some j)
    (hobj : ∃ kvs, j = Json.obj kvs) :
    (∀ t, chainContent j = some (Json.str t) → interpFrame s = t)
    ∧ (chainContent j = none → interpFrame s = "") := by
  obtain ⟨kvs, rfl⟩ := hobj
  constructor
  · intro t hc
    simp only [interpFrame, hsent, Bool.false_eq_true, if_false, hparse, hc, jsTruthy,
      jsToString]
    by_cases ht : t = "" <;> simp [ht]
  · intro hc
    simp [interpFrame, hsent, hparse, hc]

/-- Witness for C8 at a concrete payload whose content path holds `"hi"`. -/
theorem c8_witness :
    interpFrame "\x7b\"choices\":[\x7b\"delta\":\x7b\"content\":\"hi\"\x7d\x7d]\x7d" = "hi" :=
  (c8_content_path_extraction
      "\x7b\"choices\":[\x7b\"delta\":\x7b\"content\":\"hi\"\x7d\x7d]\x7d"
      (Json.obj [("choices",
        Json.arr [Json.obj [("delta", Json.obj [("content", Json.str "hi")])]])])
      (by decide) (by rfl) ⟨_, rfl⟩).1 "hi" (by rfl)

/-- Claim C9: a non-success status or a missing readable stream before any
chunk moves the session to the terminal `FAILED` state with a human-readable
message, and the visible insight is replaced with an `Error: `-prefixed
indicator, distinguishable from a normally closed stream. -/
theorem c9_transport_failure_failed_state (r r2 : StreamResponse)
    (h1 : r.ok = false) (h2 : r2.ok = true) (h3 : r2.hasBody = false) :
    ((getAiInsights r).2 = SessionOutcome.FAILED "Backend unreachable"
      ∧ (getAiInsights r).1 = "Error: Error: Backend unreachable"
      ∧ ¬ (getAiInsights r).2 = SessionOutcome.CLOSED)
    ∧ ((getAiInsights r2).2
          = SessionOutcome.FAILED "ReadableStream not yet supported or empty response"
      ∧ (getAiInsights r2).1 = "Error: Error: ReadableStream not yet supported or empty response"
      ∧ ¬ (getAiInsights r2).2 = SessionOutcome.CLOSED) := by
  constructor
  · refine ⟨by simp [getAiInsights, h1], by simp [getAiInsights, h1], by simp [getAiInsights, h1]⟩
  · refine ⟨by simp [getAiInsights, h2, h3], by simp [getAiInsights, h2, h3],
      by simp [getAiInsights, h2, h3]⟩

/-- Witness for C9 at concrete failing responses. -/
theorem c9_witness :
    ((getAiInsights ⟨false, true, []⟩).2 = SessionOutcome.FAILED "Backend unreachable"
      ∧ (getAiInsights ⟨false, true, []⟩).1 = "Error: Error: Backend unreachable"
      ∧ ¬ (getAiInsights ⟨false, true, []⟩).2 = SessionOutcome.CLOSED)
    ∧ ((getAiInsights ⟨true, false, []⟩).2
          = SessionOutcome.FAILED "ReadableStream not yet supported or empty response"
      ∧ (getAiInsights ⟨true, false, []⟩).1
          = "Error: Error: ReadableStream not yet supported or empty response"
      ∧ ¬ (getAiInsights ⟨true, false, []⟩).2 = SessionOutcome.CLOSED) :=
  c9_transport_failure_failed_state ⟨false, true, []⟩ ⟨true, false, []⟩ rfl rfl rfl

/-- Claim C10: frames are recognized only as a braced group after `data:` and
optional whitespace — every capture starts with `\x7b` and ends with `\x7d`;
the bare sentinel line `data: [DONE]` (no braces) produces no frame and
contributes nothing, so it never even reaches the sentinel check; and the
sentinel check on captured frames is substring containment of `[DONE]`, not
exact payload equality. -/
theorem c10_braced_frames_only :
    (∀ fuel cs f, f ∈ scanFramesAux fuel cs →
        f.head? = some '\x7b' ∧ f.getLast? = some '\x7d')
    ∧ extractFrames "data: [DONE]\n" = []
    ∧ processChunk "data: [DONE]\n" = ""
    ∧ containsSubstr "\x7ba[DONE]b\x7d" "[DONE]" = true
    ∧ ¬ ("\x7ba[DONE]b\x7d" : String) = "[DONE]"
    ∧ interpFrame "\x7ba[DONE]b\x7d" = "" :=
  ⟨scanFrames_shape, by decide, by decide, by decide, by decide, by decide⟩

/-- Witness for C10's universally quantified conjunct at a concrete chunk and
its captured frame. -/
theorem c10_witness :
    List.head? ['\x7b', 'q', '\x7d'] = some '\x7b'
    ∧ List.getLast? ['\x7b', 'q', '\x7d'] = some '\x7d' :=
  c10_braced_frames_only.1 12 "data: \x7bq\x7d".toList ['\x7b', 'q', '\x7d'] (by decide)

end GdcBank
